import Mathlib

/-!
Shallow embedding of `usb_boot_tool.py` (Synaptics Astra USB boot/flash tool).
Bytes are modelled as `Nat` values, byte buffers as `List Nat`.
`struct.pack` little-endian fields become `leBytes`, Python `bytearray`
slice assignment becomes `setSlice`, file-system existence becomes a
`List String` of existing paths, and a serial read of `n` bytes from the
device becomes `List.take n` of the device's pending output stream.
-/

namespace UsbBoot

/-! ## Byte-level utilities -/

/-- Little-endian serialization of `v` into `n` bytes
(each byte `% 256`, as in `struct.pack` "<I"/"<Q" layout). -/
def leBytes : Nat → Nat → List Nat
  | 0, _ => []
  | n + 1, v => v % 256 :: leBytes n (v / 256)

def le32 (v : Nat) : List Nat := leBytes 4 v

def le64 (v : Nat) : List Nat := leBytes 8 v

/-- Little-endian decode of a byte list (`struct.unpack`). -/
def leDecode : List Nat → Nat
  | [] => 0
  | b :: bs => b + 256 * leDecode bs

/-- Read the little-endian u32 stored at byte offset `off` of buffer `l`
(`struct.unpack("<I", l[off:off+4])[0]`). -/
def readU32 (off : Nat) (l : List Nat) : Nat :=
  leDecode (List.take 4 (List.drop off l))

/-- Python `bytearray` slice assignment `l[a:b] = d`. -/
def setSlice (a b : Nat) (d l : List Nat) : List Nat :=
  List.take a l ++ d ++ List.drop b l

/-! ## CRC32 (`crc32 = binascii.crc32(data) & 0xFFFFFFFF`, line 93) -/

/-- Bit steps of the reflected CRC-32:
`crc = (crc >> 1) ^ (0xEDB88320 if crc & 1 else 0)`, iterated. -/
def crc32Bits : Nat → Nat → Nat
  | 0, crc => crc
  | n + 1, crc =>
      crc32Bits n (if crc % 2 = 1 then Nat.xor (crc / 2) 0xEDB88320 else crc / 2)

/-- Byte loop of `binascii.crc32`: init 0xFFFFFFFF, per byte xor then 8 bit steps. -/
def crc32Aux (crc : Nat) : List Nat → Nat
  | [] => crc
  | b :: bs => crc32Aux (crc32Bits 8 (Nat.xor crc b)) bs

/-- Source `crc32(data)`: `binascii.crc32(data) & 0xFFFFFFFF`. -/
def crc32 (data : List Nat) : Nat :=
  Nat.xor (crc32Aux 0xFFFFFFFF data) 0xFFFFFFFF % 2 ^ 32

/-! ## Wire codec (`DeviceHandler._build_host_header`, `_build_op_header`,
`send_packet` packet construction, lines 385-416) -/

/-- `_build_host_header`: 8-byte outer header
`struct.pack("<BBBB I", 0x5B, 0x5A, service_id & 0x3F, opcode, payload_len)`. -/
def build_host_header (service_id opcode payload_len : Nat) : List Nat :=
  [0x5B, 0x5A, service_id % 64, opcode] ++ le32 payload_len

/-- `_build_op_header`: 32-byte inner header
`struct.pack("<BBBB I I I I I I I", 0x5B, 0x5A, service_id, opcode,
0, num_words, 0, addr, img_type, 1 if is_last else 0, 0)`. -/
def build_op_header (service_id opcode addr img_type : Nat) (is_last : Bool)
    (num_words : Nat) : List Nat :=
  [0x5B, 0x5A, service_id, opcode] ++ le32 0 ++ le32 num_words ++ le32 0
    ++ le32 addr ++ le32 img_type ++ le32 (if is_last then 1 else 0) ++ le32 0

/-- `send_packet` padding: `pad = (4 - (len(payload) % 4)) % 4;
payload_padded = payload + b'\xFF' * pad`. -/
def padPayload (payload : List Nat) : List Nat :=
  payload ++ List.replicate ((4 - payload.length % 4) % 4) 0xFF

/-- `send_packet` num_words: `len(payload_padded) // 4` when the caller passed
`num_words=None`, else the caller's value. -/
def sendPacketNumWords (payload_padded : List Nat) : Option Nat → Nat
  | none => payload_padded.length / 4
  | some n => n

/-- The inner packet built by `send_packet`: `inner_hdr + payload_padded`. -/
def sendPacketInner (service_id opcode : Nat) (payload : List Nat)
    (addr img_type : Nat) (is_last : Bool) (num_words : Option Nat) : List Nat :=
  let pp := padPayload payload
  build_op_header service_id opcode addr img_type is_last
    (sendPacketNumWords pp num_words) ++ pp

/-! ## Response parsing

Each of `send_packet` (lines 419-439), `send_emmc_cmd_manual` (lines 457-479)
and the final-ACK path of `op_upload_file` (lines 525-547) reads an 8-byte
reply header and then, in non-raw mode, `data_len` bytes of data.
`resp_hdr` is the 8-byte header the serial read returned; `stream` is the
device's pending output after it, so `ser.read(n)` is `stream.take n`.
Return codes are Python ints (`-1` sentinel), modelled as `Int`;
the `None`/`False` early-exit paths are `none`. -/

/-- rc extraction of `DeviceHandler.send_packet`. -/
def sendPacketRc (raw : Bool) (resp_hdr stream : List Nat) : Option Int :=
  if resp_hdr.length ≠ 8 then none
  else if ¬ (resp_hdr.getD 0 0 = 0x5B ∧ resp_hdr.getD 1 0 = 0x5A) then none
  else if raw then some (readU32 4 resp_hdr : Int)
  else
    let data_len := readU32 4 resp_hdr
    if data_len > 0 then
      let payload := stream.take data_len
      if payload.length = data_len ∧ data_len ≥ 4 then some (readU32 0 payload : Int)
      else some (-1)
    else some 0

/-- rc extraction of `send_emmc_cmd_manual` (note: no `else` branch for
`data_len == 0`, so the initial `rc = -1` survives there). -/
def emmcCmdRc (raw : Bool) (resp_hdr stream : List Nat) : Int :=
  if resp_hdr.length ≠ 8 then -1
  else if ¬ (resp_hdr.getD 0 0 = 0x5B ∧ resp_hdr.getD 1 0 = 0x5A) then -1
  else if raw then (readU32 4 resp_hdr : Int)
  else
    let data_len := readU32 4 resp_hdr
    if data_len > 0 then
      let payload := stream.take data_len
      if payload.length ≥ 4 then (readU32 0 payload : Int) else -1
    else -1

/-- final-ACK rc extraction of `op_upload_file` (lines 525-547). -/
def uploadFinalRc (raw : Bool) (resp_hdr stream : List Nat) : Option Int :=
  if resp_hdr.length ≠ 8 then none
  else if ¬ (resp_hdr.getD 0 0 = 0x5B ∧ resp_hdr.getD 1 0 = 0x5A) then none
  else if raw then some (readU32 4 resp_hdr : Int)
  else
    let data_len := readU32 4 resp_hdr
    if data_len > 0 then
      let payload := stream.take data_len
      if payload.length ≥ 4 then some (readU32 0 payload : Int) else some (-1)
    else some 0

/-! ## eMMC sub-command frame (`send_emmc_cmd_manual`, lines 444-445) -/

/-- The inner header built by `send_emmc_cmd_manual`:
`struct.pack("<BBBB I I I I I I I", 0x5B, 0x5A, SERVICE_ID_BOOT, OPCODE_EMMC_OP,
0, subcmd, param1, param2, 0, 0, 0)`. -/
def emmc_inner_hdr (subcmd param1 param2 : Nat) : List Nat :=
  [0x5B, 0x5A, 0x33, 0x0F] ++ le32 0 ++ le32 subcmd ++ le32 param1
    ++ le32 param2 ++ le32 0 ++ le32 0 ++ le32 0

/-! ## Path resolution (`gunzip_if_needed`, `resolve_file_path`, lines 224-253)

Paths are abstract strings; `os.path.abspath` is the identity here and
`os.path.exists` is membership in `fs`, the list of existing paths.
Decompression is modelled as succeeding (on failure the source returns the
original path). -/

/-- Python `s.endswith(t)`. -/
def strEndsWith (s t : String) : Bool := t.data.isSuffixOf s.data

/-- Python `s[:-n]` (for `n ≥ 1`). -/
def strDropRight (s : String) (n : Nat) : String :=
  String.mk (s.data.take (s.data.length - n))

/-- Python `s.lower()` (ASCII case folding, applied per character). -/
def strToLower (s : String) : String := String.mk (s.data.map Char.toLower)

/-- Python `t in s` (substring test). -/
def strContains (s t : String) : Bool :=
  s.data.tails.any fun tl => t.data.isPrefixOf tl

/-- `os.path.join(folder, fname)` for a relative `fname`. -/
def pathJoin (a b : String) : String := a ++ "/" ++ b

/-- Result of `resolve_file_path`: the returned path, plus which `.gz` file
(if any) was decompressed along the way — the observable side effect. -/
structure ResolveResult where
  path : Option String
  decompressed : Option String
  deriving DecidableEq

/-- `gunzip_if_needed(path)`: if the path ends in `.gz`, decompress it into
the sibling without the suffix and return that; else return it unchanged. -/
def gunzip_if_needed (p : String) : ResolveResult :=
  if strEndsWith p ".gz" then
    { path := some (strDropRight p 3), decompressed := some p }
  else { path := some p, decompressed := none }

/-- `resolve_file_path(path)` over the existing-file list `fs`. -/
def resolve_file_path (fs : List String) (p : String) : ResolveResult :=
  if strEndsWith p ".gz" then
    if fs.contains p then gunzip_if_needed p
    else if fs.contains p then { path := some p, decompressed := none }
    else { path := none, decompressed := none }
  else
    if fs.contains (p ++ ".gz") then gunzip_if_needed (p ++ ".gz")
    else if fs.contains p then { path := some p, decompressed := none }
    else { path := none, decompressed := none }

/-! ## GPT builder (lines 301-369)

`uuid.uuid4()` values (the disk GUID and each partition's GUID) are
nondeterministic inputs; the builder takes them as parameters
(`diskGuid`, `partGuids idx`: the 16 big-endian bytes of `uuid.bytes`). -/

/-- Bytes of `uuid.UUID("EBD0A0A2-B9E5-4433-87C0-68B6B72699C7").bytes`. -/
def PART_TYPE_GUID_BYTES : List Nat :=
  [0xEB, 0xD0, 0xA0, 0xA2, 0xB9, 0xE5, 0x44, 0x33,
   0x87, 0xC0, 0x68, 0xB6, 0xB7, 0x26, 0x99, 0xC7]

/-- `uuid_to_gpt_bytes`: `b[0:4][::-1] + b[4:6][::-1] + b[6:8][::-1] + b[8:]`. -/
def uuid_to_gpt_bytes (b : List Nat) : List Nat :=
  (b.take 4).reverse ++ ((b.drop 4).take 2).reverse
    ++ ((b.drop 6).take 2).reverse ++ b.drop 8

/-- UTF-16LE code-unit bytes of one code point (`str.encode("utf-16le")`). -/
def utf16leChar (c : Nat) : List Nat :=
  if c < 0x10000 then [c % 256, c / 256 % 256]
  else
    let v := c - 0x10000
    let hi := 0xD800 + v / 0x400
    let lo := 0xDC00 + v % 0x400
    [hi % 256, hi / 256 % 256, lo % 256, lo / 256 % 256]

/-- `name.encode("utf-16le")`. -/
def utf16le (s : String) : List Nat :=
  (s.data.map fun c => utf16leChar c.toNat).flatten

/-- `build_partition_entry(name, start_lba, end_lba)` with the entry's random
`uuid.uuid4()` passed in as `partGuid`.  The source writes type GUID,
partition GUID, start, end, attributes and name at offsets 0, 16, 32, 40, 48
and 56 of a zeroed 128-byte buffer; the fields are contiguous, so the entry
is their concatenation with the remaining name area left zero. -/
def build_partition_entry (partGuid : List Nat) (name : String)
    (start_lba end_lba : Nat) : List Nat :=
  let nameB := (utf16le name).take 72
  uuid_to_gpt_bytes PART_TYPE_GUID_BYTES ++ uuid_to_gpt_bytes partGuid
    ++ le64 start_lba ++ le64 end_lba ++ le64 0
    ++ nameB ++ List.replicate (72 - nameB.length) 0

/-- A line of `emmc_part_list`: `(name, start_mb, size_mb)`. -/
structure PartDesc where
  name : String
  start_mb : Nat
  size_mb : Nat
  deriving DecidableEq

/-- LBAS_PER_MB = MB_SIZE // BLOCK_SIZE = 1048576 / 512. -/
def LBAS_PER_MB : Nat := 1048576 / 512

/-- One step of the LBA layout recurrence shared by `build_gpt_primary`
(lines 351-354) and the `do_emmc` partition loop (lines 814-817):
`start_lba = start_mb * LBAS_PER_MB if start_mb > 0 else previous_end_lba + 1;
end_lba = start_lba + size_mb * LBAS_PER_MB - 1`. -/
def partLbaStep (prevEnd : Nat) (p : PartDesc) : Nat × Nat :=
  let start_lba := if p.start_mb > 0 then p.start_mb * LBAS_PER_MB else prevEnd + 1
  (start_lba, start_lba + p.size_mb * LBAS_PER_MB - 1)

/-- The `(start_lba, end_lba)` pairs assigned to successive partitions,
threading `previous_end_lba` exactly as the source loop does. -/
def partitionLbasAux (prevEnd : Nat) : List PartDesc → List (Nat × Nat)
  | [] => []
  | p :: ps =>
      let se := partLbaStep prevEnd p
      se :: partitionLbasAux se.2 ps

/-- LBA layout of a whole partition list (`previous_end_lba` starts at 0). -/
def partitionLbas (ps : List PartDesc) : List (Nat × Nat) :=
  partitionLbasAux 0 ps

/-- The entry-array loop of `build_gpt_primary` (lines 350-358): writes each
partition entry at `idx*128 : (idx+1)*128` of `part_bytes` and threads
`previous_end_lba` and `max_used_lba`.  Returns `(part_bytes, max_used_lba)`. -/
def gptLoop (partGuids : Nat → List Nat) :
    List PartDesc → Nat → Nat → Nat → List Nat → List Nat × Nat
  | [], _, _, maxUsed, acc => (acc, maxUsed)
  | p :: ps, idx, prevEnd, maxUsed, acc =>
      let se := partLbaStep prevEnd p
      let entry := build_partition_entry (partGuids idx) p.name se.1 se.2
      gptLoop partGuids ps (idx + 1) se.2 (max maxUsed se.2)
        (setSlice (idx * 128) ((idx + 1) * 128) entry acc)

/-- `build_protective_mbr`: zeroed 512-byte sector, the 16-byte entry
`struct.pack("<B3sB3sII", 0, b"\x00\x02\x00", 0xEE, b"\xFF\xFF\xFF", 1,
0xFFFFFFFF)` at offset 0x1BE = 446, and `55 AA` at offsets 510/511. -/
def build_protective_mbr : List Nat :=
  List.replicate 446 0
    ++ ([0x00] ++ [0x00, 0x02, 0x00] ++ [0xEE] ++ [0xFF, 0xFF, 0xFF]
        ++ le32 1 ++ le32 0xFFFFFFFF)
    ++ List.replicate 48 0 ++ [0x55, 0xAA]

/-- First 16 bytes of the GPT header: signature `"EFI PART"`,
revision 0x00010000, header size 92 (`struct.pack_into` at offset 0). -/
def gptHeaderPre : List Nat :=
  [0x45, 0x46, 0x49, 0x20, 0x50, 0x41, 0x52, 0x54]
    ++ le32 0x00010000 ++ le32 92

/-- Header bytes after the CRC slot (offsets 20-511): reserved u32,
current_lba 1, backup_lba 0, first_usable 34, last_usable `maxUsed`, disk
GUID, entry-array LBA 2, 128 entries of 128 bytes, the partition-array CRC,
then the zero fill of the 512-byte sector. -/
def gptHeaderRest (diskGuid : List Nat) (maxUsed partCrc : Nat) : List Nat :=
  le32 0 ++ le64 1 ++ le64 0 ++ le64 34 ++ le64 maxUsed
    ++ uuid_to_gpt_bytes diskGuid
    ++ le64 2 ++ le32 128 ++ le32 128 ++ le32 partCrc
    ++ List.replicate 420 0

/-- The header buffer before the CRC write-back: the `struct.pack_into`
calls at offsets 0, 24, 56 and 72 write contiguous fields into a zeroed
512-byte buffer, with the `header_crc` placeholder 0 at offset 16. -/
def gptHeader0 (diskGuid : List Nat) (maxUsed partCrc : Nat) : List Nat :=
  gptHeaderPre ++ le32 0 ++ gptHeaderRest diskGuid maxUsed partCrc

/-- `build_gpt_primary(part_desc_list)`: returns
`(protective MBR + header + partition array, GPT_TABLE_SIZE // BLOCK_SIZE)`. -/
def build_gpt_primary (diskGuid : List Nat) (partGuids : Nat → List Nat)
    (ps : List PartDesc) : List Nat × Nat :=
  let r := gptLoop partGuids ps 0 0 0 (List.replicate 16384 0)
  let part_array_crc := crc32 r.1
  let header0 := gptHeader0 diskGuid r.2 part_array_crc
  let hdr_crc := crc32 (header0.take 92)
  let header := setSlice 16 20 (le32 hdr_crc) header0
  let part_padded := r.1 ++ List.replicate (16384 - r.1.length) 0
  (build_protective_mbr ++ header ++ part_padded, 16384 / 512)

/-- The `part_bytes` buffer `build_gpt_primary` computes. -/
def gptPartBytes (partGuids : Nat → List Nat) (ps : List PartDesc) : List Nat :=
  (gptLoop partGuids ps 0 0 0 (List.replicate 16384 0)).1

/-- The `max_used_lba` value `build_gpt_primary` computes. -/
def gptMaxUsed (partGuids : Nat → List Nat) (ps : List PartDesc) : Nat :=
  (gptLoop partGuids ps 0 0 0 (List.replicate 16384 0)).2

/-- The `part_array_crc` value `build_gpt_primary` computes. -/
def gptArrCrc (partGuids : Nat → List Nat) (ps : List PartDesc) : Nat :=
  crc32 (gptPartBytes partGuids ps)

/-- The `hdr_crc` value `build_gpt_primary` computes (CRC of the first 92
header bytes with the crc slot still 0). -/
def gptHdrCrc (diskGuid : List Nat) (partGuids : Nat → List Nat)
    (ps : List PartDesc) : Nat :=
  crc32 ((gptHeader0 diskGuid (gptMaxUsed partGuids ps)
    (gptArrCrc partGuids ps)).take 92)

/-! ## Chunked flashing and upload streaming
(`op_upload_and_flash_chunked`, lines 562-622; `op_upload_file` stream loop,
lines 503-515) -/

/-- CHUNK_SIZE_MB * MB_SIZE = 32 MiB. -/
def CHUNK_BYTES : Nat := 32 * 1048576

/-- Blocks of one chunk of `c` bytes: zero-pad to a 512-byte boundary
(`pad_len = (-len(chunk_data)) % BLOCK_SIZE`, i.e. `(512 - c % 512) % 512`),
then `chunk_blocks = len(chunk_data) // BLOCK_SIZE`. -/
def chunkBlocks (c : Nat) : Nat := (c + (512 - c % 512) % 512) / 512

/-- The per-chunk `(current_lba, chunk_blocks)` plan of
`op_upload_and_flash_chunked`: each iteration reads up to 32 MiB
(`f.read(chunk_size_bytes)`), pads and counts blocks via `chunkBlocks`,
targets `current_lba`, and advances `current_lba` by `chunk_blocks`. -/
def chunkPlan (fileSize targetLba : Nat) : List (Nat × Nat) :=
  if fileSize = 0 then []
  else
    (targetLba, chunkBlocks (min fileSize CHUNK_BYTES)) ::
      chunkPlan (fileSize - min fileSize CHUNK_BYTES)
        (targetLba + chunkBlocks (min fileSize CHUNK_BYTES))
termination_by fileSize
decreasing_by simp_wf; simp only [CHUNK_BYTES]; omega

/-- Total bytes written by the `op_upload_file` stream loop: repeated
`f.read(chunk_size)` (3 MiB default) until EOF, each chunk written whole. -/
def streamedBytes (remaining chunk_size : Nat) : Nat :=
  if remaining = 0 ∨ chunk_size = 0 then 0
  else
    let c := min remaining chunk_size
    c + streamedBytes (remaining - c) chunk_size
termination_by remaining
decreasing_by simp_wf; omega

/-- The inner setup frame of `op_upload_file`:
`send_packet(SERVICE_ID_BOOT, OPCODE_UPLOAD, payload=b"", addr=addr,
img_type=img_type, is_last=0, num_words=size)`. -/
def op_upload_setup_inner (size addr img_type : Nat) : List Nat :=
  sendPacketInner 0x33 0x12 [] addr img_type false (some size)

/-! ## eMMC flasher partition loop (`do_emmc`, lines 811-885)

Device interactions are abstracted: `uploadOk` says whether uploads (and the
eMMC sub-commands the chunked path checks) succeed — the partition loop
itself never checks the rc of its own `send_emmc_cmd_manual` calls.  The
trace records the protocol operations and error logs the loop produces. -/

/-- `get_image_type_from_name(part_name)` (lines 288-299). -/
def get_image_type_from_name (part_name : String) : Nat :=
  let name := strToLower part_name
  if strContains name "sysmgr" then 0x00000012
  else if strContains name "bl" && !strContains name "m52" then 0x00020017
  else if strContains name "tzk" then 0x00020014
  else if [("key" : String), "boot", "firmware", "rootfs", "home"].any
      (fun x => strContains name x) then 0x10
  else 0x10

/-- Observable operations and error logs of the partition loop. -/
inductive Ev where
  | cmd (subcmd param1 param2 : Nat)
  | upload (path : String) (addr img_type : Nat)
  | errNotFound (target fname : String)
  | errOverflow (target fname : String)
  | errUploadFail (target fname : String)
  | errChunkedFail (target : String)
  deriving DecidableEq

/-- Flasher context: existing files, file sizes, whether device uploads
succeed, and the staging folder. -/
structure EmmcCtx where
  fs : List String
  sizes : String → Nat
  uploadOk : Bool
  folder : String

/-- ADDR_AC_LOAD = 0xBA100000. -/
def ADDR_AC_LOAD : Nat := 0xBA100000

/-- Events of the chunked path: per chunk, an upload of the padded chunk (via
a temporary file) and ERASE/WRITE/READBACK at the chunk's LBA. -/
def chunkedEvents (img_type : Nat) (plan : List (Nat × Nat)) : List Ev :=
  plan.flatMap fun c =>
    [Ev.upload "<chunk-tmp>" ADDR_AC_LOAD img_type,
     Ev.cmd 5 c.1 c.2, Ev.cmd 4 c.1 c.2, Ev.cmd 3 c.1 c.2]

/-- The per-file loop of one partition (`for fname in files_to_process`,
lines 826-883).  Returns the event trace and whether the stage aborted
(the `return` statements at lines 865 and 879). -/
def fileLoop (ctx : EmmcCtx) (target name : String)
    (start_lba size_lbas end_lba : Nat) :
    List String → Nat → List Ev × Bool
  | [], _ => ([], false)
  | fname :: rest, current_offset =>
    if strToLower fname = "format" then
      fileLoop ctx target name start_lba size_lbas end_lba rest current_offset
    else if strToLower fname = "erase" then
      let r := fileLoop ctx target name start_lba size_lbas end_lba rest current_offset
      ([Ev.cmd 0 0 0, Ev.cmd 2 0 0, Ev.cmd 5 start_lba size_lbas] ++ r.1, r.2)
    else
      match (resolve_file_path ctx.fs (pathJoin ctx.folder fname)).path with
      | some clean_file =>
          let fsize := ctx.sizes clean_file
          let fblks := (fsize + 512 - 1) / 512
          let itype := get_image_type_from_name name
          let target_lba := start_lba + current_offset
          if target_lba + fblks - 1 > end_lba then
            let r := fileLoop ctx target name start_lba size_lbas end_lba rest current_offset
            (Ev.errOverflow target fname :: r.1, r.2)
          else
            if fsize > 100 * 1048576 then
              if ctx.uploadOk then
                let plan := chunkPlan fsize target_lba
                let written := (plan.map Prod.snd).sum
                if written = 0 then
                  ([Ev.cmd 0 0 0, Ev.cmd 2 0 0] ++ chunkedEvents itype plan
                    ++ [Ev.errChunkedFail target], true)
                else
                  let r := fileLoop ctx target name start_lba size_lbas end_lba rest
                    (current_offset + written)
                  ([Ev.cmd 0 0 0, Ev.cmd 2 0 0] ++ chunkedEvents itype plan ++ r.1, r.2)
              else
                ([Ev.cmd 0 0 0, Ev.cmd 2 0 0, Ev.errChunkedFail target], true)
            else
              if ctx.uploadOk then
                let r := fileLoop ctx target name start_lba size_lbas end_lba rest
                  (current_offset + fblks)
                ([Ev.cmd 0 0 0, Ev.cmd 2 0 0,
                  Ev.upload clean_file ADDR_AC_LOAD itype,
                  Ev.cmd 5 target_lba fblks, Ev.cmd 4 target_lba fblks,
                  Ev.cmd 3 target_lba fblks] ++ r.1, r.2)
              else
                ([Ev.cmd 0 0 0, Ev.cmd 2 0 0, Ev.errUploadFail target fname], true)
      | none =>
          if strContains name "home" then
            fileLoop ctx target name start_lba size_lbas end_lba rest current_offset
          else
            let r := fileLoop ctx target name start_lba size_lbas end_lba rest current_offset
            (Ev.errNotFound target fname :: r.1, r.2)

/-- The partition loop of `do_emmc` (lines 813-883): threads `prev_end`
through `partLbaStep`, looks up `sd{idx+1}` in the action map, runs the file
loop with `current_offset = 0`, and stops early when the file loop hit a
`return`. -/
def partitionLoop (ctx : EmmcCtx) (ops : List (String × List String)) :
    List PartDesc → Nat → Nat → List Ev
  | [], _, _ => []
  | p :: rest, idx, prevEnd =>
      let se := partLbaStep prevEnd p
      let target := "sd" ++ toString (idx + 1)
      match ops.lookup target with
      | some files =>
          let r := fileLoop ctx target p.name se.1 (p.size_mb * LBAS_PER_MB) se.2 files 0
          if r.2 then r.1 else r.1 ++ partitionLoop ctx ops rest (idx + 1) se.2
      | none => partitionLoop ctx ops rest (idx + 1) se.2

/-! ## Helper lemmas -/

@[simp] theorem length_leBytes (n v : Nat) : (leBytes n v).length = n := by
  induction n generalizing v with
  | zero => rfl
  | succ k ih => simp [leBytes, ih]

@[simp] theorem length_le32 (v : Nat) : (le32 v).length = 4 := length_leBytes 4 v

@[simp] theorem length_le64 (v : Nat) : (le64 v).length = 8 := length_leBytes 8 v

theorem leDecode_leBytes (n v : Nat) : leDecode (leBytes n v) = v % 256 ^ n := by
  induction n generalizing v with
  | zero => simp [leBytes, leDecode, Nat.mod_one]
  | succ k ih =>
      simp only [leBytes, leDecode, ih]
      rw [pow_succ', Nat.mod_mul]

theorem leDecode_le32 (v : Nat) (h : v < 2 ^ 32) : leDecode (le32 v) = v := by
  have h4 : (256 : Nat) ^ 4 = 2 ^ 32 := by norm_num
  rw [le32, leDecode_leBytes, h4, Nat.mod_eq_of_lt h]

theorem crc32_lt (data : List Nat) : crc32 data < 2 ^ 32 :=
  Nat.mod_lt _ (by norm_num)

@[simp] theorem length_build_op_header (s o a i : Nat) (l : Bool) (n : Nat) :
    (build_op_header s o a i l n).length = 32 := by
  simp [build_op_header]

theorem streamedBytes_eq (N c : Nat) (hc : 0 < c) : streamedBytes N c = N := by
  induction N using Nat.strong_induction_on with
  | _ N ih =>
    rw [streamedBytes]
    by_cases h : N = 0
    · simp [h]
    · have hcond : ¬ (N = 0 ∨ c = 0) := by omega
      rw [if_neg hcond]
      show min N c + streamedBytes (N - min N c) c = N
      have hlt : N - min N c < N := by omega
      rw [ih (N - min N c) hlt]
      omega

/-- Reading the u32 field that sits right after a prefix of the buffer. -/
theorem readU32_field (p l : List Nat) (v : Nat) (hv : v < 2 ^ 32) :
    readU32 p.length (p ++ (le32 v ++ l)) = v := by
  rw [readU32, List.drop_left, List.take_append_eq_append_take, length_le32,
    Nat.sub_self, List.take_zero, List.append_nil,
    List.take_of_length_le (le_of_eq (length_le32 v))]
  exact leDecode_le32 v hv

/-! ## Claim theorems -/

/-- C1, counterexample: at `subcmd=5, param1=7, param2=9` the inner-header
slots named `address` (offset 16) and `image_type` (offset 20) do not carry
`param1` and `param2`: the header stores 9 at offset 16 and 0 at offset 20. -/
theorem c1_slots_counterexample :
    ¬ (readU32 16 (emmc_inner_hdr 5 7 9) = 7 ∧
       readU32 20 (emmc_inner_hdr 5 7 9) = 9) := by
  decide

/-- C1, amended: every eMMC sub-command inner header has service_id=0x33 and
opcode=0x0F, and carries `subcmd` in the `num_words` slot (offset 8),
`param1` in the reserved slot at offset 12, `param2` in the `address` slot
(offset 16); the `image_type` slot (offset 20) is 0. -/
theorem c1_emmc_header_layout (subcmd param1 param2 : Nat)
    (h1 : subcmd < 2 ^ 32) (h2 : param1 < 2 ^ 32) (h3 : param2 < 2 ^ 32) :
    (emmc_inner_hdr subcmd param1 param2).getD 2 0 = 0x33 ∧
    (emmc_inner_hdr subcmd param1 param2).getD 3 0 = 0x0F ∧
    readU32 8 (emmc_inner_hdr subcmd param1 param2) = subcmd ∧
    readU32 12 (emmc_inner_hdr subcmd param1 param2) = param1 ∧
    readU32 16 (emmc_inner_hdr subcmd param1 param2) = param2 ∧
    readU32 20 (emmc_inner_hdr subcmd param1 param2) = 0 := by
  refine ⟨rfl, rfl, ?_, ?_, ?_, ?_⟩
  · have e : emmc_inner_hdr subcmd param1 param2
        = ([0x5B, 0x5A, 0x33, 0x0F] ++ le32 0)
          ++ (le32 subcmd ++ (le32 param1 ++ le32 param2 ++ le32 0 ++ le32 0 ++ le32 0)) := by
      simp [emmc_inner_hdr]
    rw [e]
    simpa using readU32_field ([0x5B, 0x5A, 0x33, 0x0F] ++ le32 0) _ subcmd h1
  · have e : emmc_inner_hdr subcmd param1 param2
        = ([0x5B, 0x5A, 0x33, 0x0F] ++ le32 0 ++ le32 subcmd)
          ++ (le32 param1 ++ (le32 param2 ++ le32 0 ++ le32 0 ++ le32 0)) := by
      simp [emmc_inner_hdr]
    rw [e]
    simpa using readU32_field ([0x5B, 0x5A, 0x33, 0x0F] ++ le32 0 ++ le32 subcmd) _ param1 h2
  · have e : emmc_inner_hdr subcmd param1 param2
        = ([0x5B, 0x5A, 0x33, 0x0F] ++ le32 0 ++ le32 subcmd ++ le32 param1)
          ++ (le32 param2 ++ (le32 0 ++ le32 0 ++ le32 0)) := by
      simp [emmc_inner_hdr]
    rw [e]
    simpa using readU32_field
      ([0x5B, 0x5A, 0x33, 0x0F] ++ le32 0 ++ le32 subcmd ++ le32 param1) _ param2 h3
  · have e : emmc_inner_hdr subcmd param1 param2
        = ([0x5B, 0x5A, 0x33, 0x0F] ++ le32 0 ++ le32 subcmd ++ le32 param1 ++ le32 param2)
          ++ (le32 0 ++ (le32 0 ++ le32 0)) := by
      simp [emmc_inner_hdr]
    rw [e]
    simpa using readU32_field
      ([0x5B, 0x5A, 0x33, 0x0F] ++ le32 0 ++ le32 subcmd ++ le32 param1 ++ le32 param2)
      _ 0 (by norm_num)

/-- C1, witness for `c1_emmc_header_layout` at `(5, 7, 9)`. -/
theorem c1_emmc_header_layout_witness :
    (emmc_inner_hdr 5 7 9).getD 2 0 = 0x33 ∧
    (emmc_inner_hdr 5 7 9).getD 3 0 = 0x0F ∧
    readU32 8 (emmc_inner_hdr 5 7 9) = 5 ∧
    readU32 12 (emmc_inner_hdr 5 7 9) = 7 ∧
    readU32 16 (emmc_inner_hdr 5 7 9) = 9 ∧
    readU32 20 (emmc_inner_hdr 5 7 9) = 0 :=
  c1_emmc_header_layout 5 7 9 (by norm_num) (by norm_num) (by norm_num)

/-- C8: for every inner payload of byte length L, the inner payload part of
the packet `send_packet` transmits (everything after the 32-byte header) is
the payload followed by `(4 - L % 4) % 4` bytes of 0xFF, so its length is
`L + ((4 - L % 4) % 4)`. -/
theorem c8_padding (service opcode addr img_type : Nat) (is_last : Bool)
    (num_words : Option Nat) (payload : List Nat) :
    (sendPacketInner service opcode payload addr img_type is_last num_words).drop 32
      = payload ++ List.replicate ((4 - payload.length % 4) % 4) 0xFF ∧
    ((sendPacketInner service opcode payload addr img_type is_last num_words).drop 32).length
      = payload.length + ((4 - payload.length % 4) % 4) := by
  have hdrop :
      (sendPacketInner service opcode payload addr img_type is_last num_words).drop 32
        = padPayload payload := by
    rw [sendPacketInner]
    exact List.drop_left' (length_build_op_header _ _ _ _ _ _)
  refine ⟨?_, ?_⟩
  · rw [hdrop]; rfl
  · rw [hdrop]; simp [padPayload]

/-- C9: the UPLOAD setup frame built by `op_upload_file` for an N-byte file
is a bare 32-byte inner header (empty payload) with opcode 0x12 whose
`num_words` field (offset 8) holds N itself — even when N is not a multiple
of 4 — and the stream loop then writes exactly N bytes. -/
theorem c9_upload_setup (size addr img_type : Nat) (h : size < 2 ^ 32) :
    (op_upload_setup_inner size addr img_type).length = 32 ∧
    (op_upload_setup_inner size addr img_type).getD 3 0 = 0x12 ∧
    readU32 8 (op_upload_setup_inner size addr img_type) = size ∧
    streamedBytes size (3 * 1048576) = size := by
  refine ⟨?_, rfl, ?_, streamedBytes_eq size (3 * 1048576) (by norm_num)⟩
  · simp [op_upload_setup_inner, sendPacketInner, padPayload, build_op_header]
  · have e : op_upload_setup_inner size addr img_type
        = ([0x5B, 0x5A, 0x33, 0x12] ++ le32 0)
          ++ (le32 size ++ (le32 0 ++ le32 addr ++ le32 img_type ++ le32 0 ++ le32 0)) := by
      simp [op_upload_setup_inner, sendPacketInner, padPayload, sendPacketNumWords,
        build_op_header]
    rw [e]
    simpa using readU32_field ([0x5B, 0x5A, 0x33, 0x12] ++ le32 0) _ size h

/-- C9, witness for `c9_upload_setup` at N = 5 (not a multiple of 4). -/
theorem c9_upload_setup_witness :
    (op_upload_setup_inner 5 0xBA100000 0x10).length = 32 ∧
    (op_upload_setup_inner 5 0xBA100000 0x10).getD 3 0 = 0x12 ∧
    readU32 8 (op_upload_setup_inner 5 0xBA100000 0x10) = 5 ∧
    streamedBytes 5 (3 * 1048576) = 5 :=
  c9_upload_setup 5 0xBA100000 0x10 (by norm_num)

/-- C2, counterexample: a well-formed reply header with data_length = 0 makes
`send_emmc_cmd_manual` return -1, not 0 (its initial `rc = -1` is never
overwritten when `data_len == 0`). -/
theorem c2_zero_len_counterexample :
    ([0x5B, 0x5A, 0, 0, 0, 0, 0, 0] : List Nat).length = 8 ∧
    readU32 4 [0x5B, 0x5A, 0, 0, 0, 0, 0, 0] = 0 ∧
    emmcCmdRc false [0x5B, 0x5A, 0, 0, 0, 0, 0, 0] [] = -1 ∧
    emmcCmdRc false [0x5B, 0x5A, 0, 0, 0, 0, 0, 0] [] ≠ 0 := by
  decide

/-- C2, amended: for a non-raw reply whose 8-byte header starts 0x5B,0x5A and
whose last 4 bytes decode to data_length: when data_length ≥ 4 (and the
device supplies the data block) all three parse sites return the u32 in the
data block's first 4 bytes; when data_length = 0, `send_packet` and the
upload final-ACK return 0, but `send_emmc_cmd_manual` returns -1. -/
theorem c2_return_code (hdr stream : List Nat) (h8 : hdr.length = 8)
    (h0 : hdr.getD 0 0 = 0x5B) (h1 : hdr.getD 1 0 = 0x5A) :
    (readU32 4 hdr ≥ 4 → stream.length ≥ readU32 4 hdr →
      (sendPacketRc false hdr stream = some (readU32 0 (stream.take (readU32 4 hdr)) : Int) ∧
       emmcCmdRc false hdr stream = (readU32 0 (stream.take (readU32 4 hdr)) : Int) ∧
       uploadFinalRc false hdr stream = some (readU32 0 (stream.take (readU32 4 hdr)) : Int))) ∧
    (readU32 4 hdr = 0 →
      (sendPacketRc false hdr stream = some 0 ∧
       uploadFinalRc false hdr stream = some 0 ∧
       emmcCmdRc false hdr stream = -1)) := by
  have hn8 : ¬ hdr.length ≠ 8 := by omega
  have hsync : ¬¬(hdr.getD 0 0 = 0x5B ∧ hdr.getD 1 0 = 0x5A) := not_not_intro ⟨h0, h1⟩
  have hraw : ¬ (false = true) := by simp
  constructor
  · intro h4 hs
    have hpos : readU32 4 hdr > 0 := by omega
    have hlen : (stream.take (readU32 4 hdr)).length = readU32 4 hdr := by
      rw [List.length_take]; omega
    refine ⟨?_, ?_, ?_⟩
    · simp only [sendPacketRc]
      rw [if_neg hn8, if_neg hsync, if_neg hraw, if_pos hpos,
        if_pos (⟨hlen, h4⟩ : _ ∧ _)]
    · simp only [emmcCmdRc]
      rw [if_neg hn8, if_neg hsync, if_neg hraw, if_pos hpos,
        if_pos (show (stream.take (readU32 4 hdr)).length ≥ 4 by omega)]
    · simp only [uploadFinalRc]
      rw [if_neg hn8, if_neg hsync, if_neg hraw, if_pos hpos,
        if_pos (show (stream.take (readU32 4 hdr)).length ≥ 4 by omega)]
  · intro hz
    have hnpos : ¬ readU32 4 hdr > 0 := by omega
    refine ⟨?_, ?_, ?_⟩
    · simp only [sendPacketRc]
      rw [if_neg hn8, if_neg hsync, if_neg hraw, if_neg hnpos]
    · simp only [uploadFinalRc]
      rw [if_neg hn8, if_neg hsync, if_neg hraw, if_neg hnpos]
    · simp only [emmcCmdRc]
      rw [if_neg hn8, if_neg hsync, if_neg hraw, if_neg hnpos]

/-- C2, witness for `c2_return_code`: data_length = 4 with data block
`[7,0,0,0]` gives rc 7 at all three sites; data_length = 0 gives 0 at
`send_packet` and the final ACK and -1 at `send_emmc_cmd_manual`. -/
theorem c2_return_code_witness :
    (sendPacketRc false [0x5B, 0x5A, 0, 0, 4, 0, 0, 0] [7, 0, 0, 0] = some 7 ∧
     emmcCmdRc false [0x5B, 0x5A, 0, 0, 4, 0, 0, 0] [7, 0, 0, 0] = 7 ∧
     uploadFinalRc false [0x5B, 0x5A, 0, 0, 4, 0, 0, 0] [7, 0, 0, 0] = some 7) ∧
    (sendPacketRc false [0x5B, 0x5A, 0, 0, 0, 0, 0, 0] [] = some 0 ∧
     uploadFinalRc false [0x5B, 0x5A, 0, 0, 0, 0, 0, 0] [] = some 0 ∧
     emmcCmdRc false [0x5B, 0x5A, 0, 0, 0, 0, 0, 0] [] = -1) := by
  constructor
  · have h := (c2_return_code [0x5B, 0x5A, 0, 0, 4, 0, 0, 0] [7, 0, 0, 0]
      (by decide) (by decide) (by decide)).1 (by decide) (by decide)
    exact ⟨h.1.trans (by decide), h.2.1.trans (by decide), h.2.2.trans (by decide)⟩
  · exact (c2_return_code [0x5B, 0x5A, 0, 0, 0, 0, 0, 0] []
      (by decide) (by decide) (by decide)).2 (by decide)

/-- `(p ++ ".gz").endswith(".gz")` holds. -/
theorem strEndsWith_append_gz (p : String) : strEndsWith (p ++ ".gz") ".gz" = true := by
  rw [strEndsWith, String.data_append]
  exact List.isSuffixOf_iff_suffix.mpr (List.suffix_append _ _)

/-- Stripping the appended `.gz` suffix gives the path back. -/
theorem strDropRight_append_gz (p : String) : strDropRight (p ++ ".gz") 3 = p := by
  rw [strDropRight, String.data_append]
  have h : (p.data ++ (".gz" : String).data).length - 3 = p.data.length := by
    simp [List.length_append]
  rw [h, List.take_left]

/-- C4, counterexample: with both `f` and `f.gz` existing, `resolve_file_path
"f"` decompresses the sibling `f.gz` even though `f` itself exists, so the
"only when p does not exist" clause fails. -/
theorem c4_gz_first_counterexample :
    (["f", "f.gz"] : List String).contains "f" = true ∧
    resolve_file_path ["f", "f.gz"] "f"
      = { path := some "f", decompressed := some "f.gz" } := by
  decide

/-- C4, amended: a path ending in `.gz` that exists is decompressed into the
sibling without the suffix and that path returned; a path not ending in
`.gz` takes the decompressed sibling `p + ".gz"` whenever that sibling
exists — regardless of whether `p` itself exists — and is returned
unchanged (no decompression) only when the sibling does not exist. -/
theorem c4_resolve (fs : List String) (p : String) :
    (strEndsWith p ".gz" = true → fs.contains p = true →
      resolve_file_path fs p
        = { path := some (strDropRight p 3), decompressed := some p }) ∧
    (strEndsWith p ".gz" = false → fs.contains (p ++ ".gz") = true →
      resolve_file_path fs p
        = { path := some p, decompressed := some (p ++ ".gz") }) ∧
    (strEndsWith p ".gz" = false → fs.contains (p ++ ".gz") = false →
      fs.contains p = true →
      resolve_file_path fs p = { path := some p, decompressed := none }) := by
  refine ⟨?_, ?_, ?_⟩
  · intro hgz hex
    rw [resolve_file_path, if_pos hgz, if_pos hex, gunzip_if_needed, if_pos hgz]
  · intro hgz hex
    rw [resolve_file_path, if_neg (by simp [hgz]), if_pos hex, gunzip_if_needed,
      if_pos (strEndsWith_append_gz p), strDropRight_append_gz]
  · intro hgz hnex hex
    have hnex' : (p ++ ".gz") ∉ fs := by simpa using hnex
    rw [resolve_file_path, if_neg (by simp [hgz]), if_neg (by simp [hnex']), if_pos hex]

/-- C4, witness for `c4_resolve` on the three branches. -/
theorem c4_resolve_witness :
    resolve_file_path ["a.gz"] "a.gz" = { path := some "a", decompressed := some "a.gz" } ∧
    resolve_file_path ["b.gz"] "b" = { path := some "b", decompressed := some "b.gz" } ∧
    resolve_file_path ["c"] "c" = { path := some "c", decompressed := none } := by
  refine ⟨?_, ?_, ?_⟩
  · exact ((c4_resolve ["a.gz"] "a.gz").1 (by decide) (by decide)).trans (by decide)
  · exact ((c4_resolve ["b.gz"] "b").2.1 (by decide) (by decide)).trans (by decide)
  · exact (c4_resolve ["c"] "c").2.2 (by decide) (by decide) (by decide)

/-- LBA layout recurrence, generalized over the incoming `previous_end_lba`. -/
theorem partitionLbasAux_spec (ps : List PartDesc) (prevEnd i : Nat)
    (hi : i < ps.length) :
    ((ps.getD i ⟨"", 0, 0⟩).start_mb > 0 →
      ((partitionLbasAux prevEnd ps).getD i (0, 0)).1
        = (ps.getD i ⟨"", 0, 0⟩).start_mb * LBAS_PER_MB) ∧
    (¬ (ps.getD i ⟨"", 0, 0⟩).start_mb > 0 →
      ((partitionLbasAux prevEnd ps).getD i (0, 0)).1
        = (if i = 0 then prevEnd
            else ((partitionLbasAux prevEnd ps).getD (i - 1) (0, 0)).2) + 1) ∧
    ((partitionLbasAux prevEnd ps).getD i (0, 0)).2
      = ((partitionLbasAux prevEnd ps).getD i (0, 0)).1
        + (ps.getD i ⟨"", 0, 0⟩).size_mb * LBAS_PER_MB - 1 := by
  induction ps generalizing prevEnd i with
  | nil => simp at hi
  | cons p ps ih =>
    cases i with
    | zero =>
        refine ⟨?_, ?_, ?_⟩
        · intro h
          simp only [partitionLbasAux, partLbaStep, List.getD_cons_zero] at h ⊢
          rw [if_pos h]
        · intro h
          simp only [partitionLbasAux, partLbaStep, List.getD_cons_zero] at h ⊢
          rw [if_neg h]
          simp
        · simp only [partitionLbasAux, partLbaStep, List.getD_cons_zero]
    | succ j =>
        have hj : j < ps.length := by simpa using hi
        have ihj := ih (partLbaStep prevEnd p).2 j hj
        refine ⟨?_, ?_, ?_⟩
        · intro h
          simp only [partitionLbasAux, List.getD_cons_succ] at h ⊢
          exact ihj.1 h
        · intro h
          simp only [partitionLbasAux, List.getD_cons_succ] at h ⊢
          have h2 := ihj.2.1 h
          rw [if_neg (Nat.succ_ne_zero j), Nat.succ_sub_one]
          cases j with
          | zero => simpa using h2
          | succ k => simpa using h2
        · simp only [partitionLbasAux, List.getD_cons_succ]
          exact ihj.2.2

/-- C6: in the LBA layout `build_gpt_primary` computes, a descriptor with
start_mb > 0 gets start_lba = start_mb * 2048; one with start_mb = 0 gets
the previous partition's end_lba + 1 (1 for the first partition); and every
partition's end_lba is start_lba + size_mb * 2048 - 1. -/
theorem c6_lba_recurrence (ps : List PartDesc) (i : Nat) (hi : i < ps.length) :
    ((ps.getD i ⟨"", 0, 0⟩).start_mb > 0 →
      ((partitionLbas ps).getD i (0, 0)).1 = (ps.getD i ⟨"", 0, 0⟩).start_mb * 2048) ∧
    ((ps.getD i ⟨"", 0, 0⟩).start_mb = 0 →
      ((partitionLbas ps).getD i (0, 0)).1
        = (if i = 0 then 1 else ((partitionLbas ps).getD (i - 1) (0, 0)).2 + 1)) ∧
    ((partitionLbas ps).getD i (0, 0)).2
      = ((partitionLbas ps).getD i (0, 0)).1
        + (ps.getD i ⟨"", 0, 0⟩).size_mb * 2048 - 1 := by
  have hL : LBAS_PER_MB = 2048 := rfl
  have h := partitionLbasAux_spec ps 0 i hi
  refine ⟨?_, ?_, ?_⟩
  · intro hp
    have := h.1 hp
    rwa [hL] at this
  · intro hp
    have := h.2.1 (by omega)
    rw [partitionLbas]
    rcases Nat.eq_zero_or_pos i with h0 | h0
    · subst h0; simpa using this
    · rw [if_neg (by omega)]
      rw [this, if_neg (by omega)]
  · have := h.2.2
    rwa [hL] at this

/-- C6, witness for `c6_lba_recurrence` on
`[("boot", 1, 64), ("rootfs", 0, 512)]` at index 1. -/
theorem c6_lba_recurrence_witness :
    (let ps := [(⟨"boot", 1, 64⟩ : PartDesc), ⟨"rootfs", 0, 512⟩]
     ((ps.getD 1 ⟨"", 0, 0⟩).start_mb > 0 →
       ((partitionLbas ps).getD 1 (0, 0)).1 = (ps.getD 1 ⟨"", 0, 0⟩).start_mb * 2048) ∧
     ((ps.getD 1 ⟨"", 0, 0⟩).start_mb = 0 →
       ((partitionLbas ps).getD 1 (0, 0)).1
         = (if (1 : Nat) = 0 then 1 else ((partitionLbas ps).getD 0 (0, 0)).2 + 1)) ∧
     ((partitionLbas ps).getD 1 (0, 0)).2
       = ((partitionLbas ps).getD 1 (0, 0)).1
         + (ps.getD 1 ⟨"", 0, 0⟩).size_mb * 2048 - 1) :=
  c6_lba_recurrence [⟨"boot", 1, 64⟩, ⟨"rootfs", 0, 512⟩] 1 (by decide)

/-- Total blocks of the chunk plan: the padded chunks sum to `ceil(N / 512)`. -/
theorem chunkPlan_total (N t : Nat) :
    ((chunkPlan N t).map Prod.snd).sum = (N + 511) / 512 := by
  induction N using Nat.strong_induction_on generalizing t with
  | _ N ih =>
    rw [chunkPlan]
    by_cases h : N = 0
    · simp [h]
    · rw [if_neg h]
      have hC : CHUNK_BYTES = 33554432 := rfl
      have hlt : N - min N CHUNK_BYTES < N := by
        rw [hC]; omega
      rw [List.map_cons, List.sum_cons, ih (N - min N CHUNK_BYTES) hlt]
      rw [chunkBlocks, hC]
      omega

/-- Chunk `i` of the plan targets `targetLba` plus the blocks of all chunks
before it. -/
theorem chunkPlan_lba (N t i : Nat) (hi : i < (chunkPlan N t).length) :
    ((chunkPlan N t).getD i (0, 0)).1
      = t + (((chunkPlan N t).take i).map Prod.snd).sum := by
  induction N using Nat.strong_induction_on generalizing t i with
  | _ N ih =>
    rw [chunkPlan] at hi ⊢
    by_cases h : N = 0
    · rw [if_pos h] at hi; simp at hi
    · rw [if_neg h] at hi ⊢
      cases i with
      | zero => simp
      | succ j =>
          have hC : CHUNK_BYTES = 33554432 := rfl
          have hlt : N - min N CHUNK_BYTES < N := by rw [hC]; omega
          have hj : j < (chunkPlan (N - min N CHUNK_BYTES)
              (t + chunkBlocks (min N CHUNK_BYTES))).length := by
            simpa using hi
          have := ih (N - min N CHUNK_BYTES) hlt (t + chunkBlocks (min N CHUNK_BYTES)) j hj
          simp only [List.getD_cons_succ, List.take_succ_cons, List.map_cons,
            List.sum_cons, this]
          omega

/-- C7: for a chunked flash of an N-byte file at `targetLba` with 32 MiB
chunks, chunk `i`'s ERASE/WRITE/READBACK commands target
`targetLba + (sum of the previous chunks' blocks)`, and the total block
count the function returns equals `ceil(N / 512)`. -/
theorem c7_chunked_flash (N targetLba i : Nat)
    (hi : i < (chunkPlan N targetLba).length) :
    ((chunkPlan N targetLba).map Prod.snd).sum = (N + 511) / 512 ∧
    ((chunkPlan N targetLba).getD i (0, 0)).1
      = targetLba + (((chunkPlan N targetLba).take i).map Prod.snd).sum :=
  ⟨chunkPlan_total N targetLba, chunkPlan_lba N targetLba i hi⟩

/-- C7, witness for `c7_chunked_flash` on a 1000-byte file at LBA 7. -/
theorem c7_chunked_flash_witness :
    ((chunkPlan 1000 7).map Prod.snd).sum = (1000 + 511) / 512 ∧
    ((chunkPlan 1000 7).getD 0 (0, 0)).1
      = 7 + (((chunkPlan 1000 7).take 0).map Prod.snd).sum :=
  c7_chunked_flash 1000 7 0 (by rw [chunkPlan]; norm_num)

/-! ### GPT structure lemmas -/

theorem length_uuid_to_gpt_bytes (b : List Nat) (h : b.length = 16) :
    (uuid_to_gpt_bytes b).length = 16 := by
  simp [uuid_to_gpt_bytes, h]

theorem length_build_partition_entry (g : List Nat) (name : String) (s e : Nat)
    (hg : g.length = 16) :
    (build_partition_entry g name s e).length = 128 := by
  have hty : (uuid_to_gpt_bytes PART_TYPE_GUID_BYTES).length = 16 :=
    length_uuid_to_gpt_bytes PART_TYPE_GUID_BYTES (by rfl)
  simp [build_partition_entry, length_uuid_to_gpt_bytes g hg, hty]

theorem length_setSlice (a b : Nat) (d l : List Nat)
    (hab : a + d.length = b) (hb : b ≤ l.length) :
    (setSlice a b d l).length = l.length := by
  simp [setSlice, List.length_take, List.length_drop]
  omega

/-- Slice assignment that replaces an exactly-matching middle block. -/
theorem setSlice_exact (a b : Nat) (p x q d : List Nat)
    (hp : p.length = a) (hx : a + x.length = b) :
    setSlice a b d (p ++ (x ++ q)) = p ++ (d ++ q) := by
  subst hp
  subst hx
  rw [setSlice]
  have h1 : List.take p.length (p ++ (x ++ q)) = p := List.take_left p _
  have h2 : List.drop (p.length + x.length) (p ++ (x ++ q)) = q := by
    have hx2 : p.length + x.length = (p ++ x).length := by simp
    rw [hx2, ← List.append_assoc, List.drop_left]
  rw [h1, h2, List.append_assoc]

theorem take_prefix_add (p m : List Nat) (n k t : Nat)
    (hp : p.length = n) (ht : t = n + k) :
    List.take t (p ++ m) = p ++ List.take k m := by
  subst hp
  subst ht
  rw [List.take_append_eq_append_take,
    List.take_of_length_le (Nat.le_add_right _ _), Nat.add_sub_cancel_left]

theorem gptLoop_length (pg : Nat → List Nat) (hpg : ∀ i, (pg i).length = 16)
    (ps : List PartDesc) (idx prevEnd maxUsed : Nat) (acc : List Nat)
    (hacc : acc.length = 16384) (hcnt : idx + ps.length ≤ 128) :
    (gptLoop pg ps idx prevEnd maxUsed acc).1.length = 16384 := by
  induction ps generalizing idx prevEnd maxUsed acc with
  | nil => simpa [gptLoop] using hacc
  | cons p ps ih =>
      have hidx : idx + 1 ≤ 128 := by
        have := hcnt; simp at this; omega
      have hcnt' : (idx + 1) + ps.length ≤ 128 := by
        have := hcnt; simp at this; omega
      simp only [gptLoop]
      apply ih
      · refine (length_setSlice (idx * 128) ((idx + 1) * 128) _ acc ?_ ?_).trans hacc
        · rw [length_build_partition_entry _ _ _ _ (hpg idx)]
          ring
        · rw [hacc]
          omega
      · exact hcnt'

theorem length_gptHeaderPre : gptHeaderPre.length = 16 := by
  simp only [gptHeaderPre, List.length_append, List.length_cons, List.length_nil,
    length_le32]

theorem length_gptHeaderRest (dg : List Nat) (mu pc : Nat) (hdg : dg.length = 16) :
    (gptHeaderRest dg mu pc).length = 492 := by
  simp only [gptHeaderRest, List.length_append, List.length_replicate,
    length_le32, length_le64, length_uuid_to_gpt_bytes dg hdg]

theorem length_build_protective_mbr : build_protective_mbr.length = 512 := by
  simp only [build_protective_mbr, List.length_append, List.length_replicate,
    List.length_cons, List.length_nil, length_le32]

/-- `build_gpt_primary`'s image, written as the concatenation of its pieces
with the header CRC already substituted into its slot. -/
theorem build_gpt_primary_eq (dg : List Nat) (pg : Nat → List Nat)
    (ps : List PartDesc) (h128 : ps.length ≤ 128)
    (hpg : ∀ i, (pg i).length = 16) :
    (build_gpt_primary dg pg ps).1
      = build_protective_mbr
        ++ (gptHeaderPre ++ (le32 (gptHdrCrc dg pg ps)
             ++ (gptHeaderRest dg (gptMaxUsed pg ps) (gptArrCrc pg ps)
                 ++ gptPartBytes pg ps))) := by
  have hlen : (gptPartBytes pg ps).length = 16384 :=
    gptLoop_length pg hpg ps 0 0 0 _ (by rw [List.length_replicate]) (by omega)
  have e1 : (build_gpt_primary dg pg ps).1
      = (build_protective_mbr
          ++ setSlice 16 20 (le32 (gptHdrCrc dg pg ps))
              (gptHeader0 dg (gptMaxUsed pg ps) (gptArrCrc pg ps)))
        ++ (gptPartBytes pg ps
            ++ List.replicate (16384 - (gptPartBytes pg ps).length) 0) := rfl
  rw [e1, hlen, Nat.sub_self, List.replicate_zero, List.append_nil]
  have hH0 : gptHeader0 dg (gptMaxUsed pg ps) (gptArrCrc pg ps)
      = gptHeaderPre ++ (le32 0
          ++ gptHeaderRest dg (gptMaxUsed pg ps) (gptArrCrc pg ps)) := by
    rw [gptHeader0, List.append_assoc]
  rw [hH0, setSlice_exact 16 20 gptHeaderPre (le32 0) _ _ length_gptHeaderPre (by simp)]
  simp only [List.append_assoc]

/-- C5: in every GPT image built with at most 128 partition descriptors
(16-byte GUID inputs), the CRC32 of the 92 header bytes with the CRC slot
(header bytes 16..20, i.e. image bytes 528..532) zeroed equals the stored
header CRC at image offset 528 (= 512 + 16), and the CRC32 of the full
16-KiB partition-entry array (image offset 1024 onward) equals the stored
partition-array CRC at image offset 600 (= 512 + 88). -/
theorem c5_gpt_crcs (dg : List Nat) (pg : Nat → List Nat) (ps : List PartDesc)
    (h128 : ps.length ≤ 128) (hdg : dg.length = 16)
    (hpg : ∀ i, (pg i).length = 16) :
    crc32 (setSlice 16 20 (le32 0)
        (((build_gpt_primary dg pg ps).1.drop 512).take 92))
      = readU32 528 (build_gpt_primary dg pg ps).1 ∧
    crc32 ((build_gpt_primary dg pg ps).1.drop 1024)
      = readU32 600 (build_gpt_primary dg pg ps).1 ∧
    ((build_gpt_primary dg pg ps).1.drop 1024).length = 16384 := by
  have hlenpb : (gptPartBytes pg ps).length = 16384 :=
    gptLoop_length pg hpg ps 0 0 0 _ (by rw [List.length_replicate]) (by omega)
  have hrest : (gptHeaderRest dg (gptMaxUsed pg ps) (gptArrCrc pg ps)).length = 492 :=
    length_gptHeaderRest dg _ _ hdg
  have hc : gptHdrCrc dg pg ps < 2 ^ 32 := crc32_lt _
  have hpc : gptArrCrc pg ps < 2 ^ 32 := crc32_lt _
  have e := build_gpt_primary_eq dg pg ps h128 hpg
  have hd512 : (build_gpt_primary dg pg ps).1.drop 512
      = gptHeaderPre ++ (le32 (gptHdrCrc dg pg ps)
          ++ (gptHeaderRest dg (gptMaxUsed pg ps) (gptArrCrc pg ps)
              ++ gptPartBytes pg ps)) := by
    rw [e]
    exact List.drop_left' length_build_protective_mbr
  have ht92 : ((build_gpt_primary dg pg ps).1.drop 512).take 92
      = gptHeaderPre ++ (le32 (gptHdrCrc dg pg ps)
          ++ (gptHeaderRest dg (gptMaxUsed pg ps) (gptArrCrc pg ps)).take 72) := by
    rw [hd512,
      take_prefix_add gptHeaderPre _ 16 76 92 length_gptHeaderPre (by norm_num),
      take_prefix_add (le32 (gptHdrCrc dg pg ps)) _ 4 72 76 (length_le32 _) (by norm_num),
      List.take_append_of_le_length (by rw [hrest]; norm_num)]
  have ht92z : (gptHeader0 dg (gptMaxUsed pg ps) (gptArrCrc pg ps)).take 92
      = gptHeaderPre ++ (le32 0
          ++ (gptHeaderRest dg (gptMaxUsed pg ps) (gptArrCrc pg ps)).take 72) := by
    have hH0 : gptHeader0 dg (gptMaxUsed pg ps) (gptArrCrc pg ps)
        = gptHeaderPre ++ (le32 0
            ++ gptHeaderRest dg (gptMaxUsed pg ps) (gptArrCrc pg ps)) := by
      rw [gptHeader0, List.append_assoc]
    rw [hH0,
      take_prefix_add gptHeaderPre _ 16 76 92 length_gptHeaderPre (by norm_num),
      take_prefix_add (le32 0) _ 4 72 76 (length_le32 _) (by norm_num)]
  have hd1024 : (build_gpt_primary dg pg ps).1.drop 1024 = gptPartBytes pg ps := by
    have himg : (build_gpt_primary dg pg ps).1
        = (build_protective_mbr ++ (gptHeaderPre ++ (le32 (gptHdrCrc dg pg ps)
            ++ gptHeaderRest dg (gptMaxUsed pg ps) (gptArrCrc pg ps))))
          ++ gptPartBytes pg ps := by
      rw [e]; simp only [List.append_assoc]
    have hp : (build_protective_mbr ++ (gptHeaderPre ++ (le32 (gptHdrCrc dg pg ps)
        ++ gptHeaderRest dg (gptMaxUsed pg ps) (gptArrCrc pg ps)))).length = 1024 := by
      simp only [List.length_append, length_build_protective_mbr, length_gptHeaderPre,
        length_le32, hrest]
    rw [himg]
    exact List.drop_left' hp
  refine ⟨?_, ?_, ?_⟩
  · rw [ht92, setSlice_exact 16 20 gptHeaderPre (le32 (gptHdrCrc dg pg ps)) _ _
      length_gptHeaderPre (by simp)]
    have h528 : readU32 528 (build_gpt_primary dg pg ps).1 = gptHdrCrc dg pg ps := by
      have himg : (build_gpt_primary dg pg ps).1
          = (build_protective_mbr ++ gptHeaderPre)
            ++ (le32 (gptHdrCrc dg pg ps)
              ++ (gptHeaderRest dg (gptMaxUsed pg ps) (gptArrCrc pg ps)
                  ++ gptPartBytes pg ps)) := by
        rw [e, ← List.append_assoc]
      have hp : (build_protective_mbr ++ gptHeaderPre).length = 528 := by
        simp only [List.length_append, length_build_protective_mbr, length_gptHeaderPre]
      have hf := readU32_field (build_protective_mbr ++ gptHeaderPre)
        (gptHeaderRest dg (gptMaxUsed pg ps) (gptArrCrc pg ps) ++ gptPartBytes pg ps)
        (gptHdrCrc dg pg ps) hc
      rw [hp] at hf
      rw [himg, hf]
    rw [h528]
    have hcrc : gptHdrCrc dg pg ps
        = crc32 ((gptHeader0 dg (gptMaxUsed pg ps) (gptArrCrc pg ps)).take 92) := rfl
    rw [hcrc, ht92z]
  · rw [hd1024]
    have h600 : readU32 600 (build_gpt_primary dg pg ps).1 = gptArrCrc pg ps := by
      have hsplit : gptHeaderRest dg (gptMaxUsed pg ps) (gptArrCrc pg ps)
          = (le32 0 ++ (le64 1 ++ (le64 0 ++ (le64 34 ++ (le64 (gptMaxUsed pg ps)
              ++ (uuid_to_gpt_bytes dg ++ (le64 2 ++ (le32 128 ++ le32 128))))))))
            ++ (le32 (gptArrCrc pg ps) ++ List.replicate 420 0) := by
        rw [gptHeaderRest]; simp only [List.append_assoc]
      have himg : (build_gpt_primary dg pg ps).1
          = ((build_protective_mbr ++ gptHeaderPre)
              ++ (le32 (gptHdrCrc dg pg ps)
                ++ (le32 0 ++ (le64 1 ++ (le64 0 ++ (le64 34 ++ (le64 (gptMaxUsed pg ps)
                    ++ (uuid_to_gpt_bytes dg ++ (le64 2 ++ (le32 128 ++ le32 128))))))))))
            ++ (le32 (gptArrCrc pg ps)
              ++ (List.replicate 420 0 ++ gptPartBytes pg ps)) := by
        rw [e, hsplit]; simp only [List.append_assoc]
      have hp : ((build_protective_mbr ++ gptHeaderPre)
          ++ (le32 (gptHdrCrc dg pg ps)
            ++ (le32 0 ++ (le64 1 ++ (le64 0 ++ (le64 34 ++ (le64 (gptMaxUsed pg ps)
                ++ (uuid_to_gpt_bytes dg ++ (le64 2 ++ (le32 128 ++ le32 128)))))))))).length
          = 600 := by
        simp only [List.length_append, length_build_protective_mbr, length_gptHeaderPre,
          length_le32, length_le64, length_uuid_to_gpt_bytes dg hdg]
      have hf := readU32_field
        ((build_protective_mbr ++ gptHeaderPre)
          ++ (le32 (gptHdrCrc dg pg ps)
            ++ (le32 0 ++ (le64 1 ++ (le64 0 ++ (le64 34 ++ (le64 (gptMaxUsed pg ps)
                ++ (uuid_to_gpt_bytes dg ++ (le64 2 ++ (le32 128 ++ le32 128))))))))))
        (List.replicate 420 0 ++ gptPartBytes pg ps) (gptArrCrc pg ps) hpc
      rw [hp] at hf
      rw [himg, hf]
    rw [h600]
    rfl
  · rw [hd1024]
    exact hlenpb

/-- C5, witness for `c5_gpt_crcs` on a one-partition list with zeroed GUIDs. -/
theorem c5_gpt_crcs_witness :
    (let dg := List.replicate 16 0
     let pg := fun (_ : Nat) => List.replicate 16 0
     let ps := [(⟨"boot", 1, 64⟩ : PartDesc)]
     crc32 (setSlice 16 20 (le32 0)
         (((build_gpt_primary dg pg ps).1.drop 512).take 92))
       = readU32 528 (build_gpt_primary dg pg ps).1 ∧
     crc32 ((build_gpt_primary dg pg ps).1.drop 1024)
       = readU32 600 (build_gpt_primary dg pg ps).1 ∧
     ((build_gpt_primary dg pg ps).1.drop 1024).length = 16384) :=
  c5_gpt_crcs (List.replicate 16 0) (fun _ => List.replicate 16 0)
    [⟨"boot", 1, 64⟩] (by norm_num) (by rw [List.length_replicate])
    (fun _ => by rw [List.length_replicate])

/-- C10: for at most 128 descriptors the GPT image is exactly 17408 bytes
(512 MBR + 512 header + 16384 array) while `build_gpt_primary` returns a
table size of 32 LBAs; the flash path's `gpt_blocks`, derived from the byte
length as `(len + 512 - 1) // 512`, is 34, not the returned 32. -/
theorem c10_gpt_size (dg : List Nat) (pg : Nat → List Nat) (ps : List PartDesc)
    (h128 : ps.length ≤ 128) (hdg : dg.length = 16)
    (hpg : ∀ i, (pg i).length = 16) :
    (build_gpt_primary dg pg ps).1.length = 17408 ∧
    (build_gpt_primary dg pg ps).2 = 32 ∧
    ((build_gpt_primary dg pg ps).1.length + 512 - 1) / 512 = 34 := by
  have hlenpb : (gptPartBytes pg ps).length = 16384 :=
    gptLoop_length pg hpg ps 0 0 0 _ (by rw [List.length_replicate]) (by omega)
  have hrest : (gptHeaderRest dg (gptMaxUsed pg ps) (gptArrCrc pg ps)).length = 492 :=
    length_gptHeaderRest dg _ _ hdg
  have e := build_gpt_primary_eq dg pg ps h128 hpg
  have h1 : (build_gpt_primary dg pg ps).1.length = 17408 := by
    rw [e]
    simp only [List.length_append, length_build_protective_mbr, length_gptHeaderPre,
      length_le32, hrest, hlenpb]
  refine ⟨h1, rfl, ?_⟩
  rw [h1]

/-- C10, witness for `c10_gpt_size` on a one-partition list. -/
theorem c10_gpt_size_witness :
    (let dg := List.replicate 16 0
     let pg := fun (_ : Nat) => List.replicate 16 0
     let ps := [(⟨"boot", 1, 64⟩ : PartDesc)]
     (build_gpt_primary dg pg ps).1.length = 17408 ∧
     (build_gpt_primary dg pg ps).2 = 32 ∧
     ((build_gpt_primary dg pg ps).1.length + 512 - 1) / 512 = 34) :=
  c10_gpt_size (List.replicate 16 0) (fun _ => List.replicate 16 0)
    [⟨"boot", 1, 64⟩] (by norm_num) (by rw [List.length_replicate])
    (fun _ => by rw [List.length_replicate])

/-- C3, counterexample: with `sd1`'s file `img1.bin` missing (partition
"data", no "home" in the name) and `sd2` mapped to `erase`, the trace logs
the not-found error and then still processes `sd2` — INIT, SELECT_AREA and
ERASE of the second partition follow the error, so the stage does not abort. -/
theorem c3_no_abort_counterexample :
    partitionLoop
      { fs := [], sizes := fun _ => 0, uploadOk := true, folder := "dir" }
      [("sd1", ["img1.bin"]), ("sd2", ["erase"])]
      [⟨"data", 1, 100⟩, ⟨"swap", 0, 100⟩] 0 0
      = [Ev.errNotFound "sd1" "img1.bin",
         Ev.cmd 0 0 0, Ev.cmd 2 0 0, Ev.cmd 5 206848 204800] := by
  rfl

/-- C3, amended: in the eMMC partition loop, a referenced file whose resolved
path does not exist is silently skipped when the partition name contains
"home"; otherwise a file-not-found error is logged and the loop continues
with the remaining files and partitions (no abort is triggered). -/
theorem c3_missing_file (ctx : EmmcCtx) (target name : String)
    (start_lba size_lbas end_lba : Nat) (fname : String) (rest : List String)
    (off : Nat)
    (hfmt : strToLower fname ≠ "format") (hers : strToLower fname ≠ "erase")
    (hmiss : (resolve_file_path ctx.fs (pathJoin ctx.folder fname)).path = none) :
    fileLoop ctx target name start_lba size_lbas end_lba (fname :: rest) off
      = if strContains name "home"
        then fileLoop ctx target name start_lba size_lbas end_lba rest off
        else (Ev.errNotFound target fname
                :: (fileLoop ctx target name start_lba size_lbas end_lba rest off).1,
              (fileLoop ctx target name start_lba size_lbas end_lba rest off).2) := by
  simp only [fileLoop]
  rw [if_neg hfmt, if_neg hers, hmiss]

/-- C3, witness for `c3_missing_file` at a concrete missing file on a
non-home partition. -/
theorem c3_missing_file_witness :
    fileLoop { fs := [], sizes := fun _ => 0, uploadOk := true, folder := "d" }
        "sd1" "data" 1 2 3 ("x.bin" :: []) 0
      = if strContains "data" "home"
        then fileLoop { fs := [], sizes := fun _ => 0, uploadOk := true, folder := "d" }
              "sd1" "data" 1 2 3 [] 0
        else (Ev.errNotFound "sd1" "x.bin"
                :: (fileLoop { fs := [], sizes := fun _ => 0, uploadOk := true, folder := "d" }
                      "sd1" "data" 1 2 3 [] 0).1,
              (fileLoop { fs := [], sizes := fun _ => 0, uploadOk := true, folder := "d" }
                  "sd1" "data" 1 2 3 [] 0).2) :=
  c3_missing_file { fs := [], sizes := fun _ => 0, uploadOk := true, folder := "d" }
    "sd1" "data" 1 2 3 "x.bin" [] 0 (by decide) (by decide) (by decide)

end UsbBoot
